import Mathlib

/-!
Verification of `filter_tess_no_planets.py`.

The script fetches two catalogs, normalizes identifiers, filters the
candidate table against the confirmed-identifier set, and writes a CSV.
We embed the pure data flow shallowly:

* JSON rows from the Exoplanet Archive become `List (Option String)`
  (the `tic_id` field of each row, `none` when null).
* Raw MAST observation rows become `RawObs` records with optional
  `target_name` and `t_exptime` fields (`none` models a missing / NaN cell).
* Exposure times are modelled as exact rationals: the program performs no
  floating-point arithmetic, only `astype(float)` (identity on numeric
  values) and equality comparison during deduplication.
* The Python `set` of confirmed ids is modelled as a `List String` used
  only through membership, which matches `Series.isin`.
* Regex and string operations (`str.replace`, `str.strip`,
  `str.extract(r"TIC\s*(\d+)")`) are translated character by character
  over ASCII whitespace and decimal digits.
-/

namespace FilterTess

/-- Whitespace characters recognized by Python's default strip and by
regex class backslash-s, restricted to ASCII. -/
def isSpaceChar (c : Char) : Bool :=
  c = ' ' || c = '\t' || c = '\n' || c = '\r' || c = '\x0b' || c = '\x0c'

/-- Python `s.replace("TIC", "")`: removes every (left-to-right,
non-overlapping) occurrence of the substring "TIC". -/
def replaceTIC : List Char → List Char
  | 'T' :: 'I' :: 'C' :: rest => replaceTIC rest
  | c :: cs => c :: replaceTIC cs
  | [] => []

/-- Python `s.strip()`: removes leading and trailing whitespace. -/
def stripChars (cs : List Char) : List Char :=
  ((cs.dropWhile isSpaceChar).reverse.dropWhile isSpaceChar).reverse

/-- Normalization applied by `fetch_confirmed_tic_ids` to each non-empty
`tic_id` value: `tic.replace("TIC", "").strip()`. -/
def normalizeTic (s : String) : String :=
  ⟨stripChars (replaceTIC s.data)⟩

/-- `fetch_confirmed_tic_ids`, lines 54-59: from the decoded JSON rows,
keep each truthy (present and non-empty) `tic_id` and normalize it.
The Python `set` is modelled as a list used only through membership. -/
def fetch_confirmed_tic_ids (rows : List (Option String)) : List String :=
  rows.filterMap (fun tic =>
    match tic with
    | none => none
    | some s => if s = "" then none else some (normalizeTic s))

/-- Attempt to match the regex `TIC\s*(\d+)` at the head of the character
list: literal "TIC", then any whitespace, then a maximal non-empty
digit run (the captured group). -/
def matchTicAt (l : List Char) : Option (List Char) :=
  if l.take 3 = ['T', 'I', 'C'] then
    let ds := ((l.drop 3).dropWhile isSpaceChar).takeWhile Char.isDigit
    if ds = [] then none else some ds
  else none

/-- `re.search` semantics for `TIC\s*(\d+)`: try each start position left
to right, return the first successful capture. -/
def searchTic : List Char → Option (List Char)
  | [] => none
  | c :: cs =>
    match matchTicAt (c :: cs) with
    | some ds => some ds
    | none => searchTic cs

/-- `Series.str.extract(r"TIC\s*(\d+)", expand=False)` on one cell:
the first capture group of the first match, or null. -/
def extractTic (s : String) : Option String :=
  (searchTic s.data).map (fun ds => ⟨ds⟩)

/-- One raw row of the MAST observations table restricted to the two
requested columns; `none` models a missing (NaN) cell. -/
structure RawObs where
  target_name : Option String
  t_exptime : Option ℚ
deriving DecidableEq, Repr

/-- One row of the candidate table: columns `tic_id` and `cadence`. -/
structure Row where
  tic_id : String
  cadence : ℚ
deriving DecidableEq, Repr

/-- Pandas `drop_duplicates`: keep the first occurrence of each element,
in order. `seen` accumulates the elements already emitted. -/
def dropDupAux {α : Type} [DecidableEq α] (seen : List α) : List α → List α
  | [] => []
  | x :: xs => if x ∈ seen then dropDupAux seen xs else x :: dropDupAux (x :: seen) xs

/-- `fetch_lightcurve_targets`, lines 86-89, for the default columns:
`dropna` on the two raw columns, extract `tic_id` from `target_name`
via the regex, `cadence := t_exptime`, drop rows with failed
extraction, `drop_duplicates`. -/
def fetch_lightcurve_targets (raw : List RawObs) : List Row :=
  dropDupAux []
    (((raw.filterMap (fun o =>
        match o.target_name, o.t_exptime with
        | some nm, some t => some (nm, t)
        | _, _ => none))).filterMap
      (fun p => (extractTic p.1).map (fun id => Row.mk id p.2)))

/-- The filter step of `main`, line 95:
`candidates[~candidates["tic_id"].isin(confirmed_tics)]`. -/
def filterStep (confirmed : List String) (candidates : List Row) : List Row :=
  candidates.filter (fun r => !(confirmed.contains r.tic_id))

/-- The CSV written by `to_csv(index=False)`: a header line followed by
the data rows. -/
structure CsvOutput where
  header : String
  rows : List Row
deriving DecidableEq, Repr

/-- `main`, lines 92-96: fetch both tables, filter, write header
`tic_id,cadence` plus the surviving rows. -/
def mainOutput (confirmedRaw : List (Option String)) (obsRaw : List RawObs) : CsvOutput :=
  ⟨"tic_id,cadence",
   filterStep (fetch_confirmed_tic_ids confirmedRaw) (fetch_lightcurve_targets obsRaw)⟩

/-- Transport-layer failures of a fetch: an SSL certificate error or any
other exception (connection failure, timeout, raised HTTP status ...). -/
inductive TransportError : Type
  | ssl
  | other (msg : String)
deriving DecidableEq, Repr

/-- An HTTP response: status code and decoded body. -/
structure HttpResponse (α : Type) where
  status : Nat
  body : α

/-- The try/except shape shared by both fetchers (lines 35-51 and 77-85):
one attempt with certificate verification on; if and only if it raises
an SSL error, one retry with verification off, whose outcome (success
or any error) is final. The network is modelled as a function from the
verify flag to the attempt's outcome. -/
def getWithSslRetry {α : Type} (net : Bool → Except TransportError α) :
    Except TransportError α :=
  match net true with
  | .error .ssl => net false
  | r => r

/-- `response.raise_for_status()`, line 52: statuses of 400 and above
raise, others pass the response through. -/
def raise_for_status {α : Type} (r : HttpResponse α) :
    Except TransportError (HttpResponse α) :=
  if 400 ≤ r.status then .error (.other ("HTTP " ++ toString r.status)) else .ok r

/-- `fetch_confirmed_tic_ids` including its transport behavior,
lines 35-59: retry on SSL, raise on bad status, then normalize. -/
def fetch_confirmed_run
    (net : Bool → Except TransportError (HttpResponse (List (Option String)))) :
    Except TransportError (List String) :=
  match getWithSslRetry net with
  | .error e => .error e
  | .ok resp =>
    match raise_for_status resp with
    | .error e => .error e
    | .ok r => .ok (fetch_confirmed_tic_ids r.body)

/-- `fetch_lightcurve_targets` including its transport behavior,
lines 77-89: retry on SSL, then the table pipeline. Non-success HTTP
statuses surface as exceptions of the catalog client, covered by
`TransportError.other`. -/
def fetch_lightcurve_run (net : Bool → Except TransportError (List RawObs)) :
    Except TransportError (List Row) :=
  match getWithSslRetry net with
  | .error e => .error e
  | .ok t => .ok (fetch_lightcurve_targets t)

end FilterTess

namespace FilterTess

/-! ### Helper lemmas -/

theorem mem_filterStep {confirmed : List String} {cands : List Row} {r : Row} :
    r ∈ filterStep confirmed cands ↔ r ∈ cands ∧ r.tic_id ∉ confirmed := by
  simp [filterStep, List.mem_filter, List.elem_iff]

theorem replaceTIC_cons_of_ne {c : Char} {cs : List Char} (h : c ≠ 'T') :
    replaceTIC (c :: cs) = c :: replaceTIC cs := by
  rw [replaceTIC.eq_def]
  split
  · rename_i rest heq
    exact absurd (by injection heq) h
  · rename_i c2 cs2 hno heq
    obtain ⟨rfl, rfl⟩ : c = c2 ∧ cs = cs2 := ⟨by injection heq, by injection heq⟩
    rfl
  · rename_i heq
    exact absurd heq (by simp)

theorem replaceTIC_eq_self {l : List Char} (h : ∀ c ∈ l, c ≠ 'T') : replaceTIC l = l := by
  induction l with
  | nil => rfl
  | cons c cs ih =>
    rw [replaceTIC_cons_of_ne (h c (List.mem_cons_self c cs)),
        ih (fun d hd => h d (List.mem_cons_of_mem c hd))]

theorem digit_ne_T {c : Char} (h : c.isDigit = true) : c ≠ 'T' := by
  rintro rfl
  exact absurd h (by decide)

theorem isSpaceChar_eq_false_of_digit {c : Char} (h : c.isDigit = true) :
    isSpaceChar c = false := by
  cases hs : isSpaceChar c with
  | false => rfl
  | true =>
    exfalso
    simp only [isSpaceChar, Bool.or_eq_true, decide_eq_true_eq] at hs
    rcases hs with ((((rfl | rfl) | rfl) | rfl) | rfl) | rfl <;> exact absurd h (by decide)

theorem dropWhile_eq_self_of_false {p : Char → Bool} {l : List Char}
    (h : ∀ c ∈ l, p c = false) : l.dropWhile p = l := by
  cases l with
  | nil => rfl
  | cons c cs => simp [List.dropWhile_cons, h c (List.mem_cons_self c cs)]

theorem stripChars_eq_self {l : List Char} (h : ∀ c ∈ l, isSpaceChar c = false) :
    stripChars l = l := by
  unfold stripChars
  rw [dropWhile_eq_self_of_false h,
      dropWhile_eq_self_of_false (fun c hc => h c (List.mem_reverse.mp hc)),
      List.reverse_reverse]

theorem normalizeTic_of_digits {n : String} (h : ∀ c ∈ n.data, c.isDigit) :
    normalizeTic n = n := by
  unfold normalizeTic
  rw [replaceTIC_eq_self (fun c hc => digit_ne_T (h c hc)),
      stripChars_eq_self (fun c hc => isSpaceChar_eq_false_of_digit (h c hc))]

theorem mem_dropDupAux {α : Type} [DecidableEq α] (seen : List α) (l : List α) (x : α) :
    x ∈ dropDupAux seen l ↔ x ∈ l ∧ x ∉ seen := by
  induction l generalizing seen with
  | nil => simp [dropDupAux]
  | cons a as ih =>
    simp only [dropDupAux]
    by_cases h : a ∈ seen
    · rw [if_pos h, ih]
      simp only [List.mem_cons]
      constructor
      · rintro ⟨hx, hns⟩
        exact ⟨Or.inr hx, hns⟩
      · rintro ⟨(rfl | hx), hns⟩
        · exact absurd h hns
        · exact ⟨hx, hns⟩
    · rw [if_neg h]
      simp only [List.mem_cons, ih]
      constructor
      · rintro (rfl | ⟨hx, hns⟩)
        · exact ⟨Or.inl rfl, h⟩
        · simp only [List.mem_cons, not_or] at hns
          exact ⟨Or.inr hx, hns.2⟩
      · rintro ⟨(rfl | hx), hns⟩
        · exact Or.inl rfl
        · by_cases hxa : x = a
          · exact Or.inl hxa
          · exact Or.inr ⟨hx, by simp [List.mem_cons, hxa, hns]⟩

theorem nodup_dropDupAux {α : Type} [DecidableEq α] (seen : List α) (l : List α) :
    (dropDupAux seen l).Nodup := by
  induction l generalizing seen with
  | nil => simp [dropDupAux]
  | cons a as ih =>
    simp only [dropDupAux]
    split
    · exact ih seen
    · rw [List.nodup_cons]
      refine ⟨?_, ih (a :: seen)⟩
      intro hmem
      rcases (mem_dropDupAux _ _ _).mp hmem with ⟨-, hns⟩
      exact hns (List.mem_cons_self a seen)

theorem mem_fetch_lightcurve {raw : List RawObs} {r : Row} :
    r ∈ fetch_lightcurve_targets raw ↔
      ∃ o ∈ raw, ∃ nm, o.target_name = some nm ∧ o.t_exptime = some r.cadence ∧
        extractTic nm = some r.tic_id := by
  unfold fetch_lightcurve_targets
  rw [mem_dropDupAux]
  simp only [List.not_mem_nil, not_false_iff, and_true, List.mem_filterMap,
    Option.map_eq_some']
  constructor
  · rintro ⟨⟨nm, t⟩, ⟨o, ho, hm⟩, id, hid, heq⟩
    rcases o with ⟨tn, te⟩
    cases tn with
    | none => simp at hm
    | some nm2 =>
      cases te with
      | none => simp at hm
      | some t2 =>
        simp only [Option.some.injEq, Prod.mk.injEq] at hm
        obtain ⟨rfl, rfl⟩ := hm
        subst heq
        exact ⟨⟨some nm2, some t2⟩, ho, nm2, rfl, rfl, hid⟩
  · rintro ⟨o, ho, nm, h1, h2, h3⟩
    refine ⟨⟨nm, r.cadence⟩, ⟨o, ho, ?_⟩, r.tic_id, h3, rfl⟩
    rw [h1, h2]

theorem matchTicAt_some_digits {l ds : List Char} (h : matchTicAt l = some ds) :
    ds ≠ [] ∧ ∀ c ∈ ds, c.isDigit := by
  unfold matchTicAt at h
  split at h
  · dsimp only at h
    split at h
    · exact absurd h (by simp)
    · rename_i hne
      obtain rfl : _ = ds := by injection h
      exact ⟨hne, fun c hc => List.mem_takeWhile_imp hc⟩
  · exact absurd h (by simp)

theorem searchTic_some_digits {l ds : List Char} (h : searchTic l = some ds) :
    ds ≠ [] ∧ ∀ c ∈ ds, c.isDigit := by
  induction l with
  | nil => exact absurd h (by simp [searchTic])
  | cons c cs ih =>
    unfold searchTic at h
    cases hm : matchTicAt (c :: cs) with
    | some ds2 =>
      rw [hm] at h
      obtain rfl : ds2 = ds := by injection h
      exact matchTicAt_some_digits hm
    | none =>
      rw [hm] at h
      exact ih h

theorem extractTic_some_digits {s t : String} (h : extractTic s = some t) :
    t ≠ "" ∧ ∀ c ∈ t.data, c.isDigit := by
  unfold extractTic at h
  cases hs : searchTic s.data with
  | none => rw [hs] at h; exact absurd h (by simp)
  | some ds =>
    rw [hs] at h
    simp only [Option.map_some'] at h
    obtain rfl : (⟨ds⟩ : String) = t := by injection h
    rcases searchTic_some_digits hs with ⟨hne, hdig⟩
    exact ⟨fun hc => hne (congrArg String.data hc), hdig⟩

theorem matchTicAt_cons_none {c : Char} {cs : List Char} (h : c ≠ 'T') :
    matchTicAt (c :: cs) = none := by
  unfold matchTicAt
  rw [if_neg]
  intro hc
  rw [List.take_succ_cons] at hc
  exact h (by injection hc)

theorem searchTic_eq_none_of_ne_T {l : List Char} (h : ∀ c ∈ l, c ≠ 'T') :
    searchTic l = none := by
  induction l with
  | nil => rfl
  | cons c cs ih =>
    unfold searchTic
    rw [matchTicAt_cons_none (h c (List.mem_cons_self c cs))]
    exact ih (fun d hd => h d (List.mem_cons_of_mem c hd))

theorem extractTic_of_digits_eq_none {n : String} (h : ∀ c ∈ n.data, c.isDigit) :
    extractTic n = none := by
  unfold extractTic
  rw [searchTic_eq_none_of_ne_T (fun c hc => digit_ne_T (h c hc))]
  rfl

theorem string_data_ne_nil {n : String} (h : n ≠ "") : n.data ≠ [] :=
  fun hd => h (congrArg String.mk hd)

theorem extractTic_TIC_prefixed {n : String} (hne : n ≠ "") (hd : ∀ c ∈ n.data, c.isDigit) :
    extractTic ("TIC " ++ n) = some n := by
  have hm : matchTicAt ('T' :: 'I' :: 'C' :: ' ' :: n.data) =
      (if (n.data.dropWhile isSpaceChar).takeWhile Char.isDigit = [] then none
       else some ((n.data.dropWhile isSpaceChar).takeWhile Char.isDigit)) := rfl
  rw [dropWhile_eq_self_of_false
        (fun c hc => isSpaceChar_eq_false_of_digit (hd c hc)),
      List.takeWhile_eq_self_iff.mpr hd] at hm
  rw [if_neg (string_data_ne_nil hne)] at hm
  show (searchTic ("TIC " ++ n).data).map (fun ds => (⟨ds⟩ : String)) = some n
  have hdata : ("TIC " ++ n).data = 'T' :: 'I' :: 'C' :: ' ' :: n.data := rfl
  rw [hdata]
  unfold searchTic
  rw [hm]
  rfl

end FilterTess

namespace FilterTess

/-! ### Claim theorems -/

/-- C1: no row of the written output carries an identifier from the set
returned by the confirmed-id fetcher, and the filter step keeps a row
exactly when it is a candidate row whose tic_id is not in that set. -/
theorem c1_filter_removes_exactly_confirmed
    (confirmedRaw : List (Option String)) (obsRaw : List RawObs) :
    (∀ id ∈ fetch_confirmed_tic_ids confirmedRaw,
        ∀ r ∈ (mainOutput confirmedRaw obsRaw).rows, r.tic_id ≠ id) ∧
    (∀ r : Row, r ∈ (mainOutput confirmedRaw obsRaw).rows ↔
        r ∈ fetch_lightcurve_targets obsRaw ∧
        r.tic_id ∉ fetch_confirmed_tic_ids confirmedRaw) := by
  have hmem : ∀ r : Row, r ∈ (mainOutput confirmedRaw obsRaw).rows ↔
      r ∈ fetch_lightcurve_targets obsRaw ∧
      r.tic_id ∉ fetch_confirmed_tic_ids confirmedRaw := fun r => mem_filterStep
  refine ⟨?_, hmem⟩
  intro id hid r hr heq
  exact ((hmem r).mp hr).2 (heq ▸ hid)

theorem c1_witness : (Row.mk "456" 20).tic_id ≠ "123" := by
  have h := (c1_filter_removes_exactly_confirmed [some "TIC 123"]
    [⟨some "TIC 456", some 20⟩]).1
  exact h "123" (by decide) ⟨"456", 20⟩ (by decide)

/-- C2 (counterexample): the two sources do not share one normalization.
Source B extracts the identifier with the regex pattern (TIC, optional
whitespace, digits), so the prefixed form "TIC 123" yields the key
"123" while the bare form "123" yields no key at all and its row is
dropped (with a present exposure time, the candidate fetcher returns
the empty table); source A's prefix-stripping normalization maps both
forms to "123". -/
theorem c2_counterexample :
    ¬ (extractTic "TIC 123" = extractTic "123") ∧
    extractTic "TIC 123" = some "123" ∧ extractTic "123" = none ∧
    fetch_lightcurve_targets [⟨some "123", some 20⟩] = [] ∧
    normalizeTic "TIC 123" = "123" ∧ normalizeTic "123" = "123" := by
  refine ⟨by decide, by decide, by decide, by decide, by decide, by decide⟩

/-- C2 (amended): for every non-empty numeric identifier string n, source
A's normalization maps both "TIC n" and the bare "n" to the key n, and
source B's regex extraction maps a name "TIC n" to that same key n, so
the prefixed and bare forms of n on source A and the prefixed form on
source B all meet in one key; but a bare "n" on source B yields no key
and its row is dropped before comparison. -/
theorem c2_normalization_amended (n : String) (hne : n ≠ "")
    (hd : ∀ c ∈ n.data, c.isDigit) :
    normalizeTic ("TIC " ++ n) = n ∧ normalizeTic n = n ∧
    extractTic ("TIC " ++ n) = some n ∧ extractTic n = none := by
  refine ⟨?_, normalizeTic_of_digits hd, extractTic_TIC_prefixed hne hd,
    extractTic_of_digits_eq_none hd⟩
  show (⟨stripChars (replaceTIC ("TIC " ++ n).data)⟩ : String) = n
  have hdata : ("TIC " ++ n).data = 'T' :: 'I' :: 'C' :: ' ' :: n.data := rfl
  rw [hdata]
  have h2 : replaceTIC ('T' :: 'I' :: 'C' :: ' ' :: n.data) = ' ' :: n.data := by
    rw [show replaceTIC ('T' :: 'I' :: 'C' :: ' ' :: n.data)
          = replaceTIC (' ' :: n.data) from rfl,
        replaceTIC_cons_of_ne (by decide),
        replaceTIC_eq_self (fun c hc => digit_ne_T (hd c hc))]
  rw [h2]
  unfold stripChars
  rw [List.dropWhile_cons]
  simp only [show isSpaceChar ' ' = true from rfl, if_true]
  rw [dropWhile_eq_self_of_false (fun c hc => isSpaceChar_eq_false_of_digit (hd c hc)),
      dropWhile_eq_self_of_false
        (fun c hc => isSpaceChar_eq_false_of_digit (hd c (List.mem_reverse.mp hc))),
      List.reverse_reverse]

theorem c2_normalization_amended_witness :
    normalizeTic ("TIC " ++ "123") = "123" ∧ normalizeTic "123" = "123" ∧
    extractTic ("TIC " ++ "123") = some "123" ∧ extractTic "123" = none :=
  c2_normalization_amended "123" (by decide) (by decide)

/-- C3: every candidate row whose tic_id is absent from the confirmed set
appears in the written output, exactly as many times as it occurs in
the candidate table (one output row per unmatched candidate row). -/
theorem c3_output_complete (confirmedRaw : List (Option String)) (obsRaw : List RawObs)
    (r : Row) (hr : r.tic_id ∉ fetch_confirmed_tic_ids confirmedRaw) :
    (r ∈ fetch_lightcurve_targets obsRaw → r ∈ (mainOutput confirmedRaw obsRaw).rows) ∧
    (mainOutput confirmedRaw obsRaw).rows.count r
      = (fetch_lightcurve_targets obsRaw).count r := by
  constructor
  · intro hmem
    exact mem_filterStep.mpr ⟨hmem, hr⟩
  · refine List.count_filter ?_
    simp [List.elem_iff, hr]

theorem c3_witness :
    (Row.mk "456" 20) ∈ (mainOutput [some "TIC 123"] [⟨some "TIC 456", some 20⟩]).rows ∧
    (mainOutput [some "TIC 123"] [⟨some "TIC 456", some 20⟩]).rows.count ⟨"456", 20⟩ =
      (fetch_lightcurve_targets [⟨some "TIC 456", some 20⟩]).count ⟨"456", 20⟩ := by
  have h := c3_output_complete [some "TIC 123"] [⟨some "TIC 456", some 20⟩]
    ⟨"456", 20⟩ (by decide)
  exact ⟨h.1 (by decide), h.2⟩

/-- C4: the written result contains no duplicate rows, hence no
(tic_id, cadence) pair occurs more than once: deduplication in the
candidate fetcher produces distinct rows and the filter step only
removes rows. -/
theorem c4_no_duplicate_pairs (confirmedRaw : List (Option String)) (obsRaw : List RawObs) :
    (mainOutput confirmedRaw obsRaw).rows.Nodup := by
  show (filterStep _ (fetch_lightcurve_targets obsRaw)).Nodup
  unfold filterStep fetch_lightcurve_targets
  exact List.Nodup.filter _ (nodup_dropDupAux _ _)

/-- C5: on confirmed set containing exactly "123" and candidate rows
("123", 120) and ("456", 20), the filter step keeps exactly the single
row ("456", 20). -/
theorem c5_concrete_filter :
    filterStep ["123"] [⟨"123", 120⟩, ⟨"456", 20⟩] = [⟨"456", 20⟩] := by
  decide

/-- C6: the shared try/except shape retries exactly once, with
verification disabled, precisely when the verified attempt raises an
SSL error; the retry's own outcome (including any error) is final;
any non-SSL error of the first attempt propagates unrecovered; and in
the confirmed-id fetcher a non-success HTTP status of the obtained
response raises an unrecovered error. -/
theorem c6_ssl_retry_and_error_propagation :
    (∀ (α : Type) (net : Bool → Except TransportError α),
       (net true = Except.error TransportError.ssl → getWithSslRetry net = net false) ∧
       (∀ e, e ≠ TransportError.ssl → net true = Except.error e →
          getWithSslRetry net = Except.error e) ∧
       (∀ a, net true = Except.ok a → getWithSslRetry net = Except.ok a)) ∧
    (∀ (net : Bool → Except TransportError (HttpResponse (List (Option String))))
       (resp : HttpResponse (List (Option String))),
       getWithSslRetry net = Except.ok resp → 400 ≤ resp.status →
       fetch_confirmed_run net =
         Except.error (TransportError.other ("HTTP " ++ toString resp.status))) ∧
    (∀ (net : Bool → Except TransportError (HttpResponse (List (Option String)))) e,
       getWithSslRetry net = Except.error e → fetch_confirmed_run net = Except.error e) ∧
    (∀ (net : Bool → Except TransportError (List RawObs)) e,
       getWithSslRetry net = Except.error e → fetch_lightcurve_run net = Except.error e) := by
  refine ⟨fun α net => ⟨?_, ?_, ?_⟩, ?_, ?_, ?_⟩
  · intro h
    unfold getWithSslRetry
    rw [h]
  · intro e hne h
    unfold getWithSslRetry
    rw [h]
    cases e with
    | ssl => exact absurd rfl hne
    | other msg => rfl
  · intro a h
    unfold getWithSslRetry
    rw [h]
  · intro net resp h hst
    unfold fetch_confirmed_run
    rw [h]
    simp [raise_for_status, hst]
  · intro net e h
    unfold fetch_confirmed_run
    rw [h]
  · intro net e h
    unfold fetch_lightcurve_run
    rw [h]

theorem c6_witness :
    getWithSslRetry
        (fun b => if b then Except.error TransportError.ssl
                  else Except.ok ([] : List RawObs)) =
      Except.ok ([] : List RawObs) := by
  have h := (c6_ssl_retry_and_error_propagation.1 (List RawObs)
    (fun b => if b then Except.error TransportError.ssl
              else Except.ok ([] : List RawObs))).1 rfl
  rw [h]
  rfl

/-- C7: a row is in the candidate fetcher's result exactly when some raw
row has a present name field from which the regex extracts the row's
tic_id and a present exposure time equal to the row's cadence; rows
with failed extraction or a missing value are dropped, the result is
deduplicated, and each surviving row carries exactly the two values
tic_id and cadence. -/
theorem c7_lightcurve_pipeline (raw : List RawObs) :
    (∀ r : Row, r ∈ fetch_lightcurve_targets raw ↔
        ∃ o ∈ raw, ∃ nm, o.target_name = some nm ∧ o.t_exptime = some r.cadence ∧
          extractTic nm = some r.tic_id) ∧
    (fetch_lightcurve_targets raw).Nodup :=
  ⟨fun _ => mem_fetch_lightcurve, by
    unfold fetch_lightcurve_targets
    exact nodup_dropDupAux _ _⟩

/-- C8: when both fetches produce empty tables, the written output is the
header `tic_id,cadence` with no data rows. -/
theorem c8_empty_fetches_header_only (a : List (Option String)) (b : List RawObs)
    (ha : fetch_confirmed_tic_ids a = []) (hb : fetch_lightcurve_targets b = []) :
    mainOutput a b = ⟨"tic_id,cadence", []⟩ := by
  simp [mainOutput, ha, hb, filterStep]

theorem c8_witness :
    mainOutput [] [] = ⟨"tic_id,cadence", []⟩ :=
  c8_empty_fetches_header_only [] [] rfl rfl

/-- C9: every tic_id produced by the candidate fetcher is a non-empty
all-digit string obtained by the regex extraction from some raw name
field; raw rows whose name matches no TIC-digits pattern contribute
nothing. -/
theorem c9_tic_id_digits (raw : List RawObs) (r : Row)
    (hr : r ∈ fetch_lightcurve_targets raw) :
    (r.tic_id ≠ "" ∧ ∀ c ∈ r.tic_id.data, c.isDigit) ∧
    ∃ o ∈ raw, ∃ nm, o.target_name = some nm ∧ extractTic nm = some r.tic_id := by
  rcases mem_fetch_lightcurve.mp hr with ⟨o, ho, nm, h1, h2, h3⟩
  exact ⟨extractTic_some_digits h3, o, ho, nm, h1, h3⟩

theorem c9_witness :
    ((Row.mk "123" 120).tic_id ≠ "" ∧ ∀ c ∈ (Row.mk "123" 120).tic_id.data, c.isDigit) ∧
    ∃ o ∈ [RawObs.mk (some "TIC 123") (some 120)], ∃ nm,
      o.target_name = some nm ∧ extractTic nm = some (Row.mk "123" 120).tic_id :=
  c9_tic_id_digits [⟨some "TIC 123", some 120⟩] ⟨"123", 120⟩ (by decide)

/-- C10: the filter step only deletes rows: the written output is a
sublist of the candidate table, so the candidate order is preserved
and every surviving row's tic_id and cadence are unchanged. -/
theorem c10_filter_is_sublist (confirmedRaw : List (Option String)) (obsRaw : List RawObs) :
    List.Sublist (mainOutput confirmedRaw obsRaw).rows (fetch_lightcurve_targets obsRaw) :=
  List.filter_sublist _

end FilterTess
